import Mathlib

/-!
Verification of the state-reduction core of `twitch_likes` (src/main.rs).

The embedding below mirrors the Rust source:
* `UserState` / `UserAction` are the two enums of the source.
* A user's entry is a `List UserState` (the source's `Vec<UserState>`).
* The store (`AppState.user_data`, a `HashMap<String, Vec<UserState>>`) is
  modelled as an association list with unique keys; new entries are placed at
  the end, and all order-sensitive results are proved order-independent.
* `applyAction` is the body of the `match action` block in `main`
  (lines 91-132), restricted to one user's vector; `applyStore` adds the
  `entry(name).or_default()` step, and the `UserAction::None` arm that never
  touches the map.
* `parse` is the `match msg.as_str()` block (lines 83-89).
* `is_user_name` and `processEvent` model the filter and body of the
  consumer loop (lines 75-134).
* `handle_get_data` is the aggregate query (lines 166-190); `i32` counters
  are modelled as `Int` (the counts are bounded by the number of users, so
  32-bit overflow is out of reach for any realistic store).
-/

inductive UserState where
  | Like
  | Dislike
  | HasLurked
deriving DecidableEq, Repr

inductive UserAction where
  | Lurk
  | Like
  | Dislike
  | RefundLike
  | None
deriving DecidableEq, Repr

/-- One user's flag vector, as in `Vec<UserState>`. -/
abbrev UserVec := List UserState

/-- The store: `HashMap<String, Vec<UserState>>` as an association list. -/
abbrev Store := List (String × UserVec)

/-- `fn is_user_name(name: Option<&String>) -> bool` (main.rs lines 35-40).
Rust's `n.starts_with("#")` for the one-character pattern `"#"` is the check
that the char sequence `['#']` is a prefix of `n`'s chars. -/
def is_user_name : Option String → Bool
  | Option.none => false
  | Option.some n => "#".data.isPrefixOf n.data

/-- The `match msg.as_str()` command dispatch (main.rs lines 83-89). -/
def parse (msg : String) : UserAction :=
  if msg = "!like" then UserAction.Like
  else if msg = "!dislike" then UserAction.Dislike
  else if msg = "!lurk" then UserAction.Lurk
  else if msg = "!refundlike" then UserAction.RefundLike
  else UserAction.None

/-- The per-user reducer: the body of `match action` in the consumer loop
(main.rs lines 91-132), acting on the entry for one user.
`user.remove(user.iter().position(|x| x == &f).unwrap())` removes the first
occurrence of flag `f`, which is `List.erase`. -/
def applyAction (action : UserAction) (user : UserVec) : UserVec :=
  match action with
  | UserAction.Lurk =>
      if UserState.HasLurked ∈ user then user else user ++ [UserState.HasLurked]
  | UserAction.Like =>
      if UserState.Like ∈ user then user
      else
        (if UserState.Dislike ∈ user then user.erase UserState.Dislike else user)
          ++ [UserState.Like]
  | UserAction.Dislike =>
      if UserState.Dislike ∈ user then user
      else
        (if UserState.Like ∈ user then user.erase UserState.Like else user)
          ++ [UserState.Dislike]
  | UserAction.RefundLike =>
      let u1 := if UserState.Like ∈ user then user.erase UserState.Like else user
      if UserState.Dislike ∈ u1 then u1.erase UserState.Dislike else u1
  | UserAction.None => user

/-- `local_state.user_data.entry(name).or_default()` followed by an in-place
update of the entry: if the key is present its value is rewritten through `f`,
otherwise a fresh entry `f []` is created (`or_default` yields an empty vec). -/
def updateUser (name : String) (f : UserVec → UserVec) : Store → Store
  | [] => [(name, f [])]
  | (k, v) :: rest =>
      if k = name then (k, f v) :: rest else (k, v) :: updateUser name f rest

/-- The effect of one `match action` arm on the whole store.  The
`UserAction::None` arm is `()` in the source: the map is never touched, so no
entry is created. -/
def applyStore (action : UserAction) (name : String) (st : Store) : Store :=
  match action with
  | UserAction.None => st
  | a => updateUser name (applyAction a) st

/-- One iteration of the consumer loop (main.rs lines 75-134): an event is a
list of positional string params; `nth(0)` is the channel designator and
`nth(1)` the message text.  Events failing `is_user_name` on the first field,
or missing the second field, are dropped (`continue`).  Otherwise the leading
`"#"` is stripped (`strip_prefix("#")`, one character) and the parsed action
is applied, keyed by the stripped designator. -/
def processEvent (st : Store) (ev : List String) : Store :=
  match ev.get? 0, ev.get? 1 with
  | Option.some name, Option.some msg =>
      if is_user_name (Option.some name) then
        applyStore (parse msg) (name.drop 1) st
      else st
  | _, _ => st

/-- The JSON payload of `GET /data` (main.rs lines 42-46). -/
structure Data where
  lurk_count : Int
  like_count : Int
deriving DecidableEq, Repr

/-- The `for_each` body of `handle_get_data` (main.rs lines 174-184): for one
entry, bump `like_count` when `Like` is present, drop it when `Dislike` is
present, and bump `lurk_count` when `HasLurked` is present; the accumulator is
the pair `(like_count, lurk_count)`. -/
def data_step (acc : Int × Int) (entry : String × UserVec) : Int × Int :=
  let lk := if UserState.Like ∈ entry.2 then acc.1 + 1 else acc.1
  let lk2 := if UserState.Dislike ∈ entry.2 then lk - 1 else lk
  let lu := if UserState.HasLurked ∈ entry.2 then acc.2 + 1 else acc.2
  (lk2, lu)

/-- `handle_get_data` (main.rs lines 166-190): starting from both counters at
zero, run `data_step` over every entry of the store. -/
def handle_get_data (st : Store) : Data :=
  let counts := st.foldl data_step ((0 : Int), (0 : Int))
  { lurk_count := counts.2, like_count := counts.1 }

/-- Folding a list of actions for one user, in arrival order. -/
def runActions (acts : List UserAction) (u : UserVec) : UserVec :=
  acts.foldl (fun v a => applyAction a v) u

/-! ## Per-user reducer lemmas -/

/-- Total number of sentiment flags (`Like` plus `Dislike` occurrences) in a
user's vector.  Reachable vectors carry at most one. -/
def sentiments (u : UserVec) : Nat :=
  u.count UserState.Like + u.count UserState.Dislike

lemma sentiments_applyAction (a : UserAction) (u : UserVec)
    (h : sentiments u ≤ 1) : sentiments (applyAction a u) ≤ 1 := by
  have hLD : UserState.Like ≠ UserState.Dislike := by decide
  have hDL : UserState.Dislike ≠ UserState.Like := by decide
  unfold sentiments at h ⊢
  cases a with
  | Lurk =>
      simp only [applyAction]
      split
      · exact h
      · simp only [List.count_append]
        have c1 : List.count UserState.Like [UserState.HasLurked] = 0 := by decide
        have c2 : List.count UserState.Dislike [UserState.HasLurked] = 0 := by decide
        omega
  | Like =>
      by_cases hL : UserState.Like ∈ u
      · simp only [applyAction, if_pos hL]
        exact h
      · have hcL : List.count UserState.Like u = 0 := List.count_eq_zero.mpr hL
        have c1 : List.count UserState.Like [UserState.Like] = 1 := by decide
        have c2 : List.count UserState.Dislike [UserState.Like] = 0 := by decide
        by_cases hD : UserState.Dislike ∈ u
        · have hcD : 0 < List.count UserState.Dislike u := List.count_pos_iff.mpr hD
          have e1 : List.count UserState.Like (u.erase UserState.Dislike)
              = List.count UserState.Like u := List.count_erase_of_ne hLD u
          have e2 : List.count UserState.Dislike (u.erase UserState.Dislike)
              = List.count UserState.Dislike u - 1 := List.count_erase_self _ u
          simp only [applyAction, if_neg hL, if_pos hD, List.count_append]
          omega
        · have hcD : List.count UserState.Dislike u = 0 := List.count_eq_zero.mpr hD
          simp only [applyAction, if_neg hL, if_neg hD, List.count_append]
          omega
  | Dislike =>
      by_cases hD : UserState.Dislike ∈ u
      · simp only [applyAction, if_pos hD]
        exact h
      · have hcD : List.count UserState.Dislike u = 0 := List.count_eq_zero.mpr hD
        have c1 : List.count UserState.Dislike [UserState.Dislike] = 1 := by decide
        have c2 : List.count UserState.Like [UserState.Dislike] = 0 := by decide
        by_cases hL : UserState.Like ∈ u
        · have hcL : 0 < List.count UserState.Like u := List.count_pos_iff.mpr hL
          have e1 : List.count UserState.Dislike (u.erase UserState.Like)
              = List.count UserState.Dislike u := List.count_erase_of_ne hDL u
          have e2 : List.count UserState.Like (u.erase UserState.Like)
              = List.count UserState.Like u - 1 := List.count_erase_self _ u
          simp only [applyAction, if_neg hD, if_pos hL, List.count_append]
          omega
        · have hcL : List.count UserState.Like u = 0 := List.count_eq_zero.mpr hL
          simp only [applyAction, if_neg hD, if_neg hL, List.count_append]
          omega
  | RefundLike =>
      simp only [applyAction]
      by_cases hL : UserState.Like ∈ u
      · simp only [if_pos hL]
        have e1 : List.count UserState.Like (u.erase UserState.Like)
            = List.count UserState.Like u - 1 := List.count_erase_self _ u
        have e2 : List.count UserState.Dislike (u.erase UserState.Like)
            = List.count UserState.Dislike u := List.count_erase_of_ne hDL u
        by_cases hD : UserState.Dislike ∈ u.erase UserState.Like
        · simp only [if_pos hD]
          have e3 : List.count UserState.Dislike ((u.erase UserState.Like).erase UserState.Dislike)
              = List.count UserState.Dislike (u.erase UserState.Like) - 1 :=
            List.count_erase_self _ _
          have e4 : List.count UserState.Like ((u.erase UserState.Like).erase UserState.Dislike)
              = List.count UserState.Like (u.erase UserState.Like) :=
            List.count_erase_of_ne hLD _
          omega
        · simp only [if_neg hD]
          omega
      · simp only [if_neg hL]
        have e2 : List.count UserState.Like u = 0 := List.count_eq_zero.mpr hL
        by_cases hD : UserState.Dislike ∈ u
        · simp only [if_pos hD]
          have e3 : List.count UserState.Dislike (u.erase UserState.Dislike)
              = List.count UserState.Dislike u - 1 := List.count_erase_self _ u
          have e4 : List.count UserState.Like (u.erase UserState.Dislike)
              = List.count UserState.Like u := List.count_erase_of_ne hLD u
          omega
        · simp only [if_neg hD]
          omega
  | None => exact h

lemma sentiments_runActions (acts : List UserAction) (u : UserVec)
    (h : sentiments u ≤ 1) : sentiments (runActions acts u) ≤ 1 := by
  induction acts generalizing u with
  | nil => exact h
  | cons a rest ih => exact ih _ (sentiments_applyAction a u h)

lemma hasLurked_mem_applyAction (a : UserAction) (u : UserVec)
    (h : UserState.HasLurked ∈ u) : UserState.HasLurked ∈ applyAction a u := by
  have hHL : UserState.HasLurked ≠ UserState.Like := by decide
  have hHD : UserState.HasLurked ≠ UserState.Dislike := by decide
  cases a with
  | Lurk =>
      simp only [applyAction]
      by_cases hc : UserState.HasLurked ∈ u
      · rw [if_pos hc]; exact h
      · rw [if_neg hc]; exact List.mem_append_left _ h
  | Like =>
      simp only [applyAction]
      by_cases hL : UserState.Like ∈ u
      · rw [if_pos hL]; exact h
      · rw [if_neg hL]
        refine List.mem_append_left _ ?_
        by_cases hD : UserState.Dislike ∈ u
        · rw [if_pos hD]; exact (List.mem_erase_of_ne hHD).mpr h
        · rw [if_neg hD]; exact h
  | Dislike =>
      simp only [applyAction]
      by_cases hD : UserState.Dislike ∈ u
      · rw [if_pos hD]; exact h
      · rw [if_neg hD]
        refine List.mem_append_left _ ?_
        by_cases hL : UserState.Like ∈ u
        · rw [if_pos hL]; exact (List.mem_erase_of_ne hHL).mpr h
        · rw [if_neg hL]; exact h
  | RefundLike =>
      simp only [applyAction]
      by_cases hL : UserState.Like ∈ u
      · rw [if_pos hL]
        by_cases hD : UserState.Dislike ∈ u.erase UserState.Like
        · rw [if_pos hD]
          exact (List.mem_erase_of_ne hHD).mpr ((List.mem_erase_of_ne hHL).mpr h)
        · rw [if_neg hD]
          exact (List.mem_erase_of_ne hHL).mpr h
      · rw [if_neg hL]
        by_cases hD : UserState.Dislike ∈ u
        · rw [if_pos hD]
          exact (List.mem_erase_of_ne hHD).mpr h
        · rw [if_neg hD]
          exact h
  | None => exact h

lemma like_mem_applyAction_like (u : UserVec) :
    UserState.Like ∈ applyAction UserAction.Like u := by
  simp only [applyAction]
  by_cases hL : UserState.Like ∈ u
  · rw [if_pos hL]; exact hL
  · rw [if_neg hL]
    exact List.mem_append_right _ (List.mem_singleton.mpr rfl)

lemma not_both_mem_of_sentiments_le_one (u : UserVec) (h : sentiments u ≤ 1) :
    UserState.Like ∉ u ∨ UserState.Dislike ∉ u := by
  by_cases hL : UserState.Like ∈ u
  · right
    intro hD
    have h1 : 0 < List.count UserState.Like u := List.count_pos_iff.mpr hL
    have h2 : 0 < List.count UserState.Dislike u := List.count_pos_iff.mpr hD
    unfold sentiments at h
    omega
  · left
    exact hL

/-! ## Claim theorems on the per-user reducer -/

/-- Claim C2: for every user and every finite sequence of actions from
`{Lurk, Like, Dislike, RefundLike, None}` applied to that user's entry
starting from the empty state, the resulting flag vector never contains both
`Like` and `Dislike` simultaneously. -/
theorem like_dislike_mutual_exclusion (acts : List UserAction) :
    ((runActions acts []).contains UserState.Like
      && (runActions acts []).contains UserState.Dislike) = false := by
  have h0 : sentiments ([] : UserVec) ≤ 1 := by simp [sentiments]
  have h := not_both_mem_of_sentiments_le_one (runActions acts [])
    (sentiments_runActions acts [] h0)
  rcases h with h | h
  · have hc : (runActions acts []).contains UserState.Like = false := by simpa using h
    rw [hc, Bool.false_and]
  · have hc : (runActions acts []).contains UserState.Dislike = false := by simpa using h
    rw [hc, Bool.and_false]

/-- Claim C4: applying `RefundLike` to a user state holding at most one copy
of each sentiment flag (every flag-set state, in particular every reachable
vector) yields a state containing neither `Like` nor `Dislike`, and
`HasLurked` is in the resulting state iff it was there before. -/
theorem refundLike_clears_sentiment (u : UserVec)
    (hL : List.count UserState.Like u ≤ 1) (hD : List.count UserState.Dislike u ≤ 1) :
    UserState.Like ∉ applyAction UserAction.RefundLike u ∧
      UserState.Dislike ∉ applyAction UserAction.RefundLike u ∧
      (UserState.HasLurked ∈ applyAction UserAction.RefundLike u ↔ UserState.HasLurked ∈ u) := by
  have hLD : UserState.Like ≠ UserState.Dislike := by decide
  have hDL : UserState.Dislike ≠ UserState.Like := by decide
  have hHL : UserState.HasLurked ≠ UserState.Like := by decide
  have hHD : UserState.HasLurked ≠ UserState.Dislike := by decide
  simp only [applyAction]
  by_cases h1 : UserState.Like ∈ u
  · rw [if_pos h1]
    have cL : List.count UserState.Like (u.erase UserState.Like) = 0 := by
      have e := List.count_erase_self UserState.Like u
      have hp := List.count_pos_iff.mpr h1
      omega
    by_cases h2 : UserState.Dislike ∈ u.erase UserState.Like
    · rw [if_pos h2]
      refine ⟨?_, ?_, ?_⟩
      · have e := List.count_erase_of_ne hLD (u.erase UserState.Like)
        exact List.count_eq_zero.mp (by omega)
      · have e := List.count_erase_self UserState.Dislike (u.erase UserState.Like)
        have e2 := List.count_erase_of_ne hDL u
        exact List.count_eq_zero.mp (by omega)
      · rw [List.mem_erase_of_ne hHD, List.mem_erase_of_ne hHL]
    · rw [if_neg h2]
      refine ⟨List.count_eq_zero.mp cL, h2, ?_⟩
      rw [List.mem_erase_of_ne hHL]
  · rw [if_neg h1]
    by_cases h2 : UserState.Dislike ∈ u
    · rw [if_pos h2]
      refine ⟨?_, ?_, ?_⟩
      · intro hmem
        exact h1 ((List.mem_erase_of_ne hLD).mp hmem)
      · have e := List.count_erase_self UserState.Dislike u
        have hp := List.count_pos_iff.mpr h2
        exact List.count_eq_zero.mp (by omega)
      · rw [List.mem_erase_of_ne hHD]
    · rw [if_neg h2]
      exact ⟨h1, h2, Iff.rfl⟩

/-- Witness for `refundLike_clears_sentiment` at the concrete state
`[Like, HasLurked]`. -/
theorem refundLike_clears_sentiment_witness :
    List.count UserState.Like [UserState.Like, UserState.HasLurked] ≤ 1 ∧
      List.count UserState.Dislike [UserState.Like, UserState.HasLurked] ≤ 1 ∧
      (UserState.Like ∉ applyAction UserAction.RefundLike [UserState.Like, UserState.HasLurked] ∧
        UserState.Dislike ∉ applyAction UserAction.RefundLike [UserState.Like, UserState.HasLurked] ∧
        (UserState.HasLurked ∈ applyAction UserAction.RefundLike [UserState.Like, UserState.HasLurked]
          ↔ UserState.HasLurked ∈ [UserState.Like, UserState.HasLurked])) :=
  ⟨by decide, by decide,
    refundLike_clears_sentiment [UserState.Like, UserState.HasLurked] (by decide) (by decide)⟩

/-- Claim C5: applying `Like` twice in a row equals applying it once, and if
`Like` is already present the application changes nothing at all. -/
theorem like_idempotent :
    (∀ u : UserVec, applyAction UserAction.Like (applyAction UserAction.Like u)
        = applyAction UserAction.Like u)
    ∧ ∀ u : UserVec, UserState.Like ∈ u → applyAction UserAction.Like u = u := by
  have key : ∀ u : UserVec, UserState.Like ∈ u → applyAction UserAction.Like u = u := by
    intro u h
    simp only [applyAction]
    rw [if_pos h]
  exact ⟨fun u => key _ (like_mem_applyAction_like u), key⟩

/-- Witness for `like_idempotent` at the concrete state `[Like, HasLurked]`. -/
theorem like_idempotent_witness :
    UserState.Like ∈ [UserState.Like, UserState.HasLurked] ∧
      applyAction UserAction.Like [UserState.Like, UserState.HasLurked]
        = [UserState.Like, UserState.HasLurked] :=
  ⟨by decide, like_idempotent.2 [UserState.Like, UserState.HasLurked] (by decide)⟩

/-- Claim C6: once `HasLurked` is present in a user's vector it remains
present after any subsequent sequence of actions, and applying `Lurk` when
`HasLurked` is already present leaves the vector unchanged (no duplicate). -/
theorem hasLurked_monotonic :
    (∀ (u : UserVec) (acts : List UserAction),
        UserState.HasLurked ∈ u → UserState.HasLurked ∈ runActions acts u)
    ∧ ∀ u : UserVec, UserState.HasLurked ∈ u → applyAction UserAction.Lurk u = u := by
  constructor
  · intro u acts
    induction acts generalizing u with
    | nil => exact fun h => h
    | cons a rest ih =>
        intro h
        have step : runActions (a :: rest) u = runActions rest (applyAction a u) := rfl
        rw [step]
        exact ih _ (hasLurked_mem_applyAction a u h)
  · intro u h
    simp only [applyAction]
    rw [if_pos h]

/-- Witness for `hasLurked_monotonic`: a lurked user stays lurked through a
refund and a like, and a second `Lurk` is a no-op. -/
theorem hasLurked_monotonic_witness :
    UserState.HasLurked ∈ [UserState.HasLurked] ∧
      UserState.HasLurked ∈
        runActions [UserAction.RefundLike, UserAction.Like] [UserState.HasLurked] ∧
      applyAction UserAction.Lurk [UserState.HasLurked] = [UserState.HasLurked] :=
  ⟨by decide,
    hasLurked_monotonic.1 [UserState.HasLurked] [UserAction.RefundLike, UserAction.Like]
      (by decide),
    hasLurked_monotonic.2 [UserState.HasLurked] (by decide)⟩

/-! ## Aggregate query lemmas -/

lemma foldl_data_step (st : Store) (a b : Int) :
    st.foldl data_step (a, b)
      = (a + (st.countP (fun e => decide (UserState.Like ∈ e.2)) : Int)
           - (st.countP (fun e => decide (UserState.Dislike ∈ e.2)) : Int),
         b + (st.countP (fun e => decide (UserState.HasLurked ∈ e.2)) : Int)) := by
  induction st generalizing a b with
  | nil => simp
  | cons e rest ih =>
      rw [List.foldl_cons]
      have hstep : data_step (a, b) e
          = ((if UserState.Dislike ∈ e.2
                then (if UserState.Like ∈ e.2 then a + 1 else a) - 1
                else (if UserState.Like ∈ e.2 then a + 1 else a)),
             (if UserState.HasLurked ∈ e.2 then b + 1 else b)) := rfl
      rw [hstep, ih]
      simp only [List.countP_cons]
      by_cases h1 : UserState.Like ∈ e.2 <;> by_cases h2 : UserState.Dislike ∈ e.2 <;>
          by_cases h3 : UserState.HasLurked ∈ e.2 <;>
        simp only [h1, h2, h3, decide_True, decide_False, if_true, if_false,
          ite_true, ite_false, Prod.mk.injEq] <;>
        constructor <;> push_cast <;> ring

/-- Claim C3: `handle_get_data` returns `like_count` equal to the number of
entries whose flag set contains `Like` minus the number whose set contains
`Dislike`, and `lurk_count` equal to the number whose set contains
`HasLurked`; the result is invariant under permutation of the entries
(iteration order), and the empty store yields `{0, 0}`. -/
theorem handle_get_data_spec :
    (∀ st : Store, handle_get_data st
        = { like_count := (st.countP (fun e => decide (UserState.Like ∈ e.2)) : Int)
              - (st.countP (fun e => decide (UserState.Dislike ∈ e.2)) : Int),
            lurk_count := (st.countP (fun e => decide (UserState.HasLurked ∈ e.2)) : Int) })
    ∧ (∀ st st' : Store, st.Perm st' → handle_get_data st = handle_get_data st')
    ∧ handle_get_data ([] : Store) = { lurk_count := 0, like_count := 0 } := by
  have hchar : ∀ st : Store, handle_get_data st
      = { like_count := (st.countP (fun e => decide (UserState.Like ∈ e.2)) : Int)
            - (st.countP (fun e => decide (UserState.Dislike ∈ e.2)) : Int),
          lurk_count := (st.countP (fun e => decide (UserState.HasLurked ∈ e.2)) : Int) } := by
    intro st
    show ({ lurk_count := (st.foldl data_step ((0 : Int), (0 : Int))).2,
            like_count := (st.foldl data_step ((0 : Int), (0 : Int))).1 } : Data) = _
    rw [foldl_data_step]
    simp
  refine ⟨hchar, ?_, by rw [hchar]; simp⟩
  intro st st' hperm
  rw [hchar, hchar, hperm.countP_eq, hperm.countP_eq, hperm.countP_eq]

/-- Witness for `handle_get_data_spec`: the query result for a two-entry
store is unchanged when the two entries are swapped. -/
theorem handle_get_data_spec_witness :
    ([("a", [UserState.Like]), ("b", [UserState.HasLurked])] : Store).Perm
        [("b", [UserState.HasLurked]), ("a", [UserState.Like])] ∧
      handle_get_data [("a", [UserState.Like]), ("b", [UserState.HasLurked])]
        = handle_get_data [("b", [UserState.HasLurked]), ("a", [UserState.Like])] :=
  ⟨List.Perm.swap _ _ _,
    handle_get_data_spec.2.1 _ _ (List.Perm.swap _ _ _)⟩

/-! ## Claims on parsing and event filtering -/

/-- Claim C7: `parse` maps exactly `"!like"`, `"!dislike"`, `"!lurk"`,
`"!refundlike"` to the corresponding actions and every other string to
`None`; it is total with no error outcome. -/
theorem parse_spec :
    parse "!like" = UserAction.Like ∧
      parse "!dislike" = UserAction.Dislike ∧
      parse "!lurk" = UserAction.Lurk ∧
      parse "!refundlike" = UserAction.RefundLike ∧
      ∀ s : String, s ≠ "!like" → s ≠ "!dislike" → s ≠ "!lurk" → s ≠ "!refundlike" →
        parse s = UserAction.None := by
  refine ⟨by decide, by decide, by decide, by decide, ?_⟩
  intro s h1 h2 h3 h4
  simp [parse, h1, h2, h3, h4]

/-- Witness for `parse_spec` at the unrecognized string `"hello"` (and the
case-sensitive near-miss is covered by the general clause as well). -/
theorem parse_spec_witness :
    ("hello" ≠ "!like" ∧ "hello" ≠ "!dislike" ∧ "hello" ≠ "!lurk" ∧
        "hello" ≠ "!refundlike") ∧
      parse "hello" = UserAction.None :=
  ⟨⟨by decide, by decide, by decide, by decide⟩,
    parse_spec.2.2.2.2 "hello" (by decide) (by decide) (by decide) (by decide)⟩

/-- Claim C8: an event whose first field is absent, whose first field lacks
the `#` channel-marker prefix, or whose second field is absent is discarded:
the store is returned unchanged.  (`is_user_name` is `false` exactly when the
first field is absent or unprefixed.) -/
theorem malformed_event_discarded (st : Store) (ev : List String)
    (h : is_user_name (ev.get? 0) = false ∨ ev.get? 1 = Option.none) :
    processEvent st ev = st := by
  match ev with
  | [] => rfl
  | [n] => rfl
  | n :: m :: rest =>
      rcases h with h | h
      · simp only [List.get?] at h
        simp [processEvent, h]
      · simp only [List.get?] at h
        cases h

/-- Witness for `malformed_event_discarded`: the spec's scenario of an event
with first field `"notachannel"` leaves a concrete store unchanged. -/
theorem malformed_event_discarded_witness :
    (is_user_name ((["notachannel", "!like"] : List String).get? 0) = false ∨
        (["notachannel", "!like"] : List String).get? 1 = Option.none) ∧
      processEvent [("viewer", [UserState.Like])] ["notachannel", "!like"]
        = [("viewer", [UserState.Like])] :=
  ⟨Or.inl (by decide),
    malformed_event_discarded [("viewer", [UserState.Like])] ["notachannel", "!like"]
      (Or.inl (by decide))⟩

/-! ## Frame and key-set claims -/

/-- Claim C9: the `None` action leaves the store exactly unchanged, and in
particular the key set is identical (no entry is created for an absent
user).  The `UserAction::None` arm of the source is `()` and runs before any
`entry(...).or_default()` call. -/
theorem none_action_no_store_change (st : Store) (name : String) :
    applyStore UserAction.None name st = st ∧
      (applyStore UserAction.None name st).map Prod.fst = st.map Prod.fst :=
  ⟨rfl, rfl⟩

lemma mem_keys_updateUser (name : String) (f : UserVec → UserVec) (st : Store) :
    name ∈ (updateUser name f st).map Prod.fst := by
  induction st with
  | nil => simp [updateUser]
  | cons e rest ih =>
      obtain ⟨k, v⟩ := e
      simp only [updateUser]
      by_cases hk : k = name
      · rw [if_pos hk]
        simp [hk]
      · rw [if_neg hk]
        simp only [List.map_cons, List.mem_cons]
        exact Or.inr ih

lemma keys_subset_updateUser (name : String) (f : UserVec → UserVec) (st : Store)
    (k : String) :
    k ∈ st.map Prod.fst → k ∈ (updateUser name f st).map Prod.fst := by
  induction st with
  | nil => intro h; cases h
  | cons e rest ih =>
      obtain ⟨k', v⟩ := e
      intro h
      simp only [List.map_cons, List.mem_cons] at h
      simp only [updateUser]
      by_cases hk : k' = name
      · rw [if_pos hk]
        simp only [List.map_cons, List.mem_cons]
        exact h
      · rw [if_neg hk]
        simp only [List.map_cons, List.mem_cons]
        rcases h with h | h
        · exact Or.inl h
        · exact Or.inr (ih h)

/-- Claim C10: no action removes a user's entry from the store: every
non-`None` action applied with key `name` leaves an entry keyed `name`
present; every key present before any action stays present; `RefundLike` can
leave behind an entry with an empty flag list; and `handle_get_data` counts
such an empty entry identically to an absent user (it contributes `0` to both
counters). -/
theorem entries_never_removed :
    (∀ (st : Store) (name : String) (a : UserAction), a ≠ UserAction.None →
        name ∈ (applyStore a name st).map Prod.fst)
    ∧ (∀ (st : Store) (name : String) (a : UserAction) (k : String),
        k ∈ st.map Prod.fst → k ∈ (applyStore a name st).map Prod.fst)
    ∧ applyStore UserAction.RefundLike "u" [("u", [UserState.Like])] = [("u", [])]
    ∧ ∀ (st : Store) (name : String),
        handle_get_data ((name, []) :: st) = handle_get_data st := by
  refine ⟨?_, ?_, by decide, ?_⟩
  · intro st name a ha
    cases a with
    | Lurk => exact mem_keys_updateUser name _ st
    | Like => exact mem_keys_updateUser name _ st
    | Dislike => exact mem_keys_updateUser name _ st
    | RefundLike => exact mem_keys_updateUser name _ st
    | None => exact absurd rfl ha
  · intro st name a k hk
    cases a with
    | Lurk => exact keys_subset_updateUser name _ st k hk
    | Like => exact keys_subset_updateUser name _ st k hk
    | Dislike => exact keys_subset_updateUser name _ st k hk
    | RefundLike => exact keys_subset_updateUser name _ st k hk
    | None => exact hk
  · intro st name
    have hchar := handle_get_data_spec.1
    rw [hchar, hchar]
    simp [List.countP_cons]

/-- Witness for `entries_never_removed`: a `RefundLike` for key `"u"` keeps
the `"u"` entry, and the unrelated key `"v"` survives a `Lurk` for `"u"`. -/
theorem entries_never_removed_witness :
    (UserAction.RefundLike ≠ UserAction.None ∧
        "u" ∈ (applyStore UserAction.RefundLike "u"
          [("u", [UserState.Like])]).map Prod.fst) ∧
      ("v" ∈ ([("v", [UserState.Like])] : Store).map Prod.fst ∧
        "v" ∈ (applyStore UserAction.Lurk "u"
          [("v", [UserState.Like])]).map Prod.fst) :=
  ⟨⟨by decide, entries_never_removed.1 [("u", [UserState.Like])] "u"
      UserAction.RefundLike (by decide)⟩,
    ⟨by decide, entries_never_removed.2.1 [("v", [UserState.Like])] "u"
      UserAction.Lurk "v" (by decide)⟩⟩

/-! ## The consumer loop and the configured channel -/

/-- Claim C1 as stated is false: the consumer loop (main.rs lines 75-89)
never compares the prefix-stripped channel designator with the configured
channel name.  With the configured channel `"mychannel"`, the event
`["#other", "!like"]` — whose stripped designator `"other"` differs from the
configured name — still changes the store (it creates the entry
`("other", [Like])`).  Restriction to the configured channel comes only from
the external transport joining a single channel. -/
theorem event_other_channel_changes_store :
    "other" ≠ "mychannel" ∧
      processEvent ([] : Store) ["#other", "!like"] ≠ ([] : Store) := by
  exact ⟨by decide, by decide⟩

/-- Claim C1 (amended): for every incoming event whose first field starts
with the channel-marker prefix `#` and whose second field is present, the
consumer loop applies the parsed action keyed by the prefix-stripped
designator, with no comparison against the configured channel name — so such
an event is processed whatever channel it names. -/
theorem event_applied_without_channel_check (st : Store) (name msg : String)
    (rest : List String) (h : is_user_name (Option.some name) = true) :
    processEvent st (name :: msg :: rest)
      = applyStore (parse msg) (name.drop 1) st := by
  simp [processEvent, h]

/-- Witness for `event_applied_without_channel_check` at a concrete event. -/
theorem event_applied_without_channel_check_witness :
    is_user_name (Option.some "#chan") = true ∧
      processEvent ([] : Store) ["#chan", "!lurk"]
        = applyStore (parse "!lurk") ("#chan".drop 1) ([] : Store) :=
  ⟨by decide, event_applied_without_channel_check [] "#chan" "!lurk" [] (by decide)⟩
